import Mathlib

/-!
Verification development for the network-operator upgrade orchestrator.

The visible source (`main.go`) wires a cluster upgrade coordinator
(`upgrade.NewClusterUpdateStateManager`) together with a drain manager,
a pod delete manager, an uncordon manager and a node upgrade state
provider, plus four CRD controllers.  The upgrade package itself is not
part of the visible source, so its behaviour is modelled from the
specification; `main`'s own wiring sequence is embedded directly from
`main.go`.
-/

namespace NetworkOperator

/-- Modelled from the spec: the enumerated per-node upgrade states of the
Cluster Upgrade Coordinator's state machine (spec section 4.5).  The code
implementing the state machine (`pkg/upgrade`) is not in the visible
source; only its construction in `main.go` is. -/
inductive UpgradeState where
  | upToDate
  | upgradeRequired
  | cordonRequired
  | podDeletionRequired
  | drainRequired
  | waitForPodReady
  | uncordonRequired
  | failed
deriving DecidableEq, Repr

/-- Terminal states: `upToDate` and `failed` (spec section 4.5 table). -/
def UpgradeState.isTerminal : UpgradeState → Bool
  | .upToDate => true
  | .failed => true
  | _ => false

/-- A state counted against the `maxParallelUpgrades` budget: non-terminal
and not `upgradeRequired` (spec section 4.5, admission control). -/
def UpgradeState.inFlight (s : UpgradeState) : Bool :=
  !s.isTerminal && !(s == .upgradeRequired)

/-- Modelled from the spec: the single forward edge out of each
non-terminal state in the spec section 4.5 table. -/
def nextState : UpgradeState → UpgradeState
  | .upgradeRequired => .cordonRequired
  | .cordonRequired => .podDeletionRequired
  | .podDeletionRequired => .drainRequired
  | .drainRequired => .waitForPodReady
  | .waitForPodReady => .uncordonRequired
  | .uncordonRequired => .upToDate
  | s => s

/-- The allowed transition edges of the spec section 4.5 table: the six
forward edges, plus any non-terminal state to `failed`. -/
def edgeB : UpgradeState → UpgradeState → Bool
  | .upgradeRequired, .cordonRequired => true
  | .cordonRequired, .podDeletionRequired => true
  | .podDeletionRequired, .drainRequired => true
  | .drainRequired, .waitForPodReady => true
  | .waitForPodReady, .uncordonRequired => true
  | .uncordonRequired, .upToDate => true
  | s, .failed => !s.isTerminal
  | _, _ => false

/-- A state change that is legal for one reconcile cycle: either the state
is unchanged, or it moved along an edge of the spec section 4.5 table. -/
def allowedB (s t : UpgradeState) : Bool :=
  s == t || edgeB s t

/-- Modelled from the spec: result of the Pod Delete Engine
(`deletePod -> ok | NotFound | DeleteError`, spec section 4.3).  The
engine (`upgrade.NewPodDeleteManager`) is not in the visible source. -/
inductive DeleteResult where
  | ok
  | notFound
  | deleteError (msg : String)
deriving DecidableEq, Repr

/-- Modelled from the spec: one node's `NodeUpgradeRecord` (spec
section 3).  `lastTransitionTime` and free-form metadata are omitted:
no claim concerns them. -/
structure NodeUpgradeRecord where
  nodeName : String
  state : UpgradeState
  trackedPodRef : Option (String × String)
  attemptCount : Nat
  lastError : Option String
deriving DecidableEq, Repr

/-- A fresh (or operator-cleared) record for a node observed needing
upgrade: re-admitted as `upgradeRequired` with a zero attempt count
(spec section 6, operator-facing recovery action). -/
def clearedRecord (name : String) : NodeUpgradeRecord :=
  { nodeName := name
    state := .upgradeRequired
    trackedPodRef := none
    attemptCount := 0
    lastError := none }

/-- Modelled from the spec: the outcome the environment (cluster API)
gives to each per-node engine call during one cycle — cordon, pod
delete, drain, pod-readiness observation, uncordon (spec sections
4.2-4.5).  The engines are not in the visible source. -/
structure EngineEnv where
  cordonOk : Bool
  deleteResult : DeleteResult
  drainOk : Bool
  podReady : Bool
  uncordonOk : Bool

/-- Whether the engine call corresponding to a given in-flight state
succeeds under a given environment.  `NotFound` from the Pod Delete
Engine counts as progress, exactly like `ok` (spec section 4.3). -/
def stepSucceeds : UpgradeState → EngineEnv → Bool
  | .cordonRequired, env => env.cordonOk
  | .podDeletionRequired, env =>
      match env.deleteResult with
      | .ok => true
      | .notFound => true
      | .deleteError _ => false
  | .drainRequired, env => env.drainOk
  | .waitForPodReady, env => env.podReady
  | .uncordonRequired, env => env.uncordonOk
  | _, _ => true

/-- The error message recorded when a step fails. -/
def stepErrorMsg : UpgradeState → EngineEnv → String
  | .cordonRequired, _ => "cordon failed"
  | .podDeletionRequired, env =>
      match env.deleteResult with
      | .deleteError msg => msg
      | _ => "delete failed"
  | .drainRequired, _ => "drain failed"
  | .waitForPodReady, _ => "tracked pod not ready"
  | .uncordonRequired, _ => "uncordon failed"
  | _, _ => ""

/-- Modelled from the spec: the Coordinator's per-node, per-cycle step for
a node not awaiting admission (spec section 4.5 transition rule).  A
terminal node is left alone; a node whose consecutive-failure budget is
already exhausted moves to `failed` regardless of its step; otherwise the
corresponding engine call is attempted: on success the state advances one
edge and `attemptCount` resets (the tracked pod reference is cleared on
terminal success), on failure `attemptCount` is incremented, the error is
recorded and the state is left unchanged for retry next cycle. -/
def stepNode (maxAttempts : Nat) (r : NodeUpgradeRecord) (env : EngineEnv) :
    NodeUpgradeRecord :=
  if r.state.isTerminal then r
  else if r.state == .upgradeRequired then r
  else if maxAttempts ≤ r.attemptCount then
    { r with state := .failed, lastError := some "attempt budget exhausted" }
  else if stepSucceeds r.state env then
    { r with
        state := nextState r.state
        attemptCount := 0
        lastError := none
        trackedPodRef :=
          if nextState r.state == .upToDate then none else r.trackedPodRef }
  else
    { r with
        attemptCount := r.attemptCount + 1
        lastError := some (stepErrorMsg r.state env) }

/-- Lexicographic comparison on node names, used to make admission
deterministic (spec section 4.5, admission control). -/
def strLe (a b : String) : Bool := (compare a b).isLE

/-- Insert a name into an already lexicographically sorted list. -/
def insertSorted (x : String) : List String → List String
  | [] => [x]
  | y :: ys => if strLe x y then x :: y :: ys else y :: insertSorted x ys

/-- Lexicographically sort a list of node names. -/
def sortNames : List String → List String
  | [] => []
  | x :: xs => insertSorted x (sortNames xs)

/-- The number of nodes in a snapshot currently counted against the
`maxParallelUpgrades` budget. -/
def inFlightCount (s : List NodeUpgradeRecord) : Nat :=
  s.countP (fun r => r.state.inFlight)

/-- Modelled from the spec: the deterministic admission decision — the
lexicographically least eligible `upgradeRequired` nodes, as many as fit
under the `maxParallelUpgrades` budget given the nodes already in flight
(spec section 4.5, admission control). -/
def admittedNames (budget : Nat) (s : List NodeUpgradeRecord) : List String :=
  (sortNames ((s.filter (fun r => r.state == .upgradeRequired)).map
    (fun r => r.nodeName))).take (budget - inFlightCount s)

/-- One node's full treatment in one cycle: an `upgradeRequired` node is
admitted into `cordonRequired` exactly when selected by admission
control; every other node takes its per-node step. -/
def cycleNode (admitted : List String) (maxAttempts : Nat)
    (envOf : String → EngineEnv) (r : NodeUpgradeRecord) : NodeUpgradeRecord :=
  if r.state == .upgradeRequired then
    if admitted.contains r.nodeName then
      { r with state := .cordonRequired, attemptCount := 0, lastError := none }
    else r
  else stepNode maxAttempts r (envOf r.nodeName)

/-- Modelled from the spec: one full Coordinator reconcile cycle over a
snapshot (spec sections 4.5 and 4.6): compute the admitted batch, then
give every node its single per-cycle step. -/
def cycle (budget maxAttempts : Nat) (s : List NodeUpgradeRecord)
    (envOf : String → EngineEnv) : List NodeUpgradeRecord :=
  s.map (cycleNode (admittedNames budget s) maxAttempts envOf)

/-- Modelled from the spec: the cluster states reachable by the
orchestrator — start from a snapshot of fresh nodes (each either up to
date or needing upgrade, node names unique), and repeatedly either run a
reconcile cycle or let an operator clear one failed node's record (spec
sections 4.5, 4.6 and 6). -/
inductive Reachable (budget maxAttempts : Nat) : List NodeUpgradeRecord → Prop
  | init (s : List NodeUpgradeRecord)
      (hnd : (s.map (fun r => r.nodeName)).Nodup)
      (hst : ∀ r ∈ s, r.state = .upToDate ∨ r.state = .upgradeRequired) :
      Reachable budget maxAttempts s
  | cycleStep (s : List NodeUpgradeRecord) (envOf : String → EngineEnv)
      (h : Reachable budget maxAttempts s) :
      Reachable budget maxAttempts (cycle budget maxAttempts s envOf)
  | clearStep (a b : List NodeUpgradeRecord) (r : NodeUpgradeRecord)
      (h : Reachable budget maxAttempts (a ++ r :: b))
      (hf : r.state = .failed) :
      Reachable budget maxAttempts (a ++ clearedRecord r.nodeName :: b)

/-! ### Drain Engine (spec section 4.2) -/

/-- A pod running on the node being drained. -/
structure Pod where
  name : String
deriving DecidableEq, Repr

/-- The node-local world the Drain Engine acts on: the schedulability
mark and the pods currently on the node. -/
structure NodeWorld where
  unschedulable : Bool
  pods : List Pod
deriving DecidableEq, Repr

/-- Modelled from the spec: a drain policy (spec section 4.2) — the
eviction timeout, the force flag, and the pod predicates to skip.  The
Drain Engine (`upgrade.NewDrainManager`) is not in the visible source. -/
structure DrainPolicy where
  timeoutSeconds : Nat
  force : Bool
  skip : Pod → Bool

/-- Reason carried by a `DrainError` (spec section 4.2). -/
inductive DrainErrReason where
  | timeout
deriving DecidableEq, Repr

/-- Outcome of a drain call: success, or a `DrainError` with its reason
and the names of the pods still remaining (spec section 4.2). -/
inductive DrainOutcome where
  | ok
  | err (reason : DrainErrReason) (remainingPods : List String)
deriving DecidableEq, Repr

/-- The evictable pods the policy does not skip that the environment
fails to evict before the timeout. -/
def remainingAfterDrain (w : NodeWorld) (policy : DrainPolicy)
    (evicts : String → Bool) : List Pod :=
  w.pods.filter (fun p => !policy.skip p && !evicts p.name)

/-- Modelled from the spec: the Drain Engine (spec section 4.2).  First
cordons the node, then evicts every non-skipped pod; `evicts` says
whether a given pod's eviction completes before the policy timeout
(budget-refused evictions retried up to the timeout are folded into this
outcome).  If any pod remains, the call returns
`DrainError{Timeout, remainingPods}` and leaves the node cordoned; it
never uncordons on partial failure. -/
def drain (w : NodeWorld) (policy : DrainPolicy) (evicts : String → Bool) :
    NodeWorld × DrainOutcome :=
  let cordoned : NodeWorld := { w with unschedulable := true }
  let remaining := remainingAfterDrain cordoned policy evicts
  let after : NodeWorld :=
    { cordoned with
        pods := cordoned.pods.filter (fun p => policy.skip p || !evicts p.name) }
  if remaining.isEmpty then (after, .ok)
  else (after, .err .timeout (remaining.map (fun p => p.name)))

/-! ### The entrypoint wiring (`main.go`) -/

/-- Which of `main`'s fallible setup steps succeed in a given run:
manager creation, the four CRD controller registrations, the Kubernetes
interface, the Upgrade controller registration, the health and ready
checks, and finally `mgr.Start` (`main.go` lines 110-168). -/
structure SetupEnv where
  newManagerOk : Bool
  nicClusterPolicyOk : Bool
  macvlanNetworkOk : Bool
  hostDeviceNetworkOk : Bool
  ipoibNetworkOk : Bool
  k8sInterfaceOk : Bool
  upgradeControllerOk : Bool
  healthzOk : Bool
  readyzOk : Bool
  startOk : Bool

/-- Result of a run of `main`: the process exit code (0 means `main`
returned normally) and whether `mgr.Start` was ever called. -/
structure MainResult where
  exitCode : Nat
  startCalled : Bool
deriving DecidableEq, Repr

/-- `setupCRDControllers` (`main.go` lines 57-91): registers the
NicClusterPolicy, MacvlanNetwork, HostDeviceNetwork and IPoIBNetwork
reconcilers in order, returning the first error. -/
def setupCRDControllers (e : SetupEnv) : Bool :=
  e.nicClusterPolicyOk && e.macvlanNetworkOk &&
    e.hostDeviceNetworkOk && e.ipoibNetworkOk

/-- `main` (`main.go` lines 93-169): each fallible step exits the process
with status 1 on error; `mgr.Start` runs only after every setup step
succeeded. -/
def runMain (e : SetupEnv) : MainResult :=
  if !e.newManagerOk then { exitCode := 1, startCalled := false }
  else if !(setupCRDControllers e) then { exitCode := 1, startCalled := false }
  else if !e.k8sInterfaceOk then { exitCode := 1, startCalled := false }
  else if !e.upgradeControllerOk then { exitCode := 1, startCalled := false }
  else if !e.healthzOk then { exitCode := 1, startCalled := false }
  else if !e.readyzOk then { exitCode := 1, startCalled := false }
  else if !e.startOk then { exitCode := 1, startCalled := true }
  else { exitCode := 0, startCalled := true }

/-! ### Concrete instances used to exercise the definitions -/

/-- An environment in which every engine call succeeds. -/
def envAllOk : EngineEnv :=
  { cordonOk := true, deleteResult := .ok, drainOk := true,
    podReady := true, uncordonOk := true }

/-- An environment in which the drain engine call fails. -/
def envDrainFails : EngineEnv :=
  { cordonOk := true, deleteResult := .ok, drainOk := false,
    podReady := true, uncordonOk := true }

/-- An environment in which the pod delete engine reports `NotFound`. -/
def envDeleteNotFound : EngineEnv :=
  { cordonOk := true, deleteResult := .notFound, drainOk := true,
    podReady := true, uncordonOk := true }

/-- A freshly observed node needing upgrade. -/
def urRecord (n : String) : NodeUpgradeRecord :=
  { nodeName := n, state := .upgradeRequired, trackedPodRef := none,
    attemptCount := 0, lastError := none }

/-- Ten nodes needing upgrade, listed in non-alphabetical order. -/
def tenFreshNodes : List NodeUpgradeRecord :=
  [urRecord "n07", urRecord "n02", urRecord "n10", urRecord "n01",
   urRecord "n05", urRecord "n04", urRecord "n09", urRecord "n03",
   urRecord "n08", urRecord "n06"]

/-- A node mid-upgrade, about to be drained. -/
def drainingRecord : NodeUpgradeRecord :=
  { nodeName := "w1", state := .drainRequired,
    trackedPodRef := some ("nvidia-network-operator", "pod-w1"),
    attemptCount := 0, lastError := none }

/-- A draining node whose retry budget is already exhausted. -/
def stuckRecord : NodeUpgradeRecord :=
  { drainingRecord with attemptCount := 3 }

/-- A node that already reached the terminal failure state. -/
def failedRecord : NodeUpgradeRecord :=
  { nodeName := "w2", state := .failed, trackedPodRef := none,
    attemptCount := 3, lastError := some "drain failed" }

/-- A node whose tracked workload pod is about to be deleted. -/
def deletingRecord : NodeUpgradeRecord :=
  { nodeName := "w3", state := .podDeletionRequired,
    trackedPodRef := some ("nvidia-network-operator", "pod-w3"),
    attemptCount := 0, lastError := none }

/-- A node with one pod that will refuse to evict. -/
def stuckPodWorld : NodeWorld :=
  { unschedulable := false, pods := [{ name := "stuck-pod" }] }

/-- An already-cordoned node carrying only the orchestrator's own pod. -/
def emptyCordonedWorld : NodeWorld :=
  { unschedulable := true, pods := [{ name := "agent-pod" }] }

/-- A drain policy that skips the orchestrator's own pod. -/
def defaultPolicy : DrainPolicy :=
  { timeoutSeconds := 300, force := false,
    skip := fun p => p.name == "agent-pod" }

/-- An eviction environment in which no pod evicts before the timeout. -/
def noneEvict : String → Bool := fun _ => false

/-- A run of `main` in which everything succeeds except the ready check. -/
def failingSetup : SetupEnv :=
  { newManagerOk := true, nicClusterPolicyOk := true, macvlanNetworkOk := true,
    hostDeviceNetworkOk := true, ipoibNetworkOk := true, k8sInterfaceOk := true,
    upgradeControllerOk := true, healthzOk := true, readyzOk := false,
    startOk := true }

/-! ### Basic properties of the per-node step -/

lemma stepNode_nodeName (m : Nat) (r : NodeUpgradeRecord) (env : EngineEnv) :
    (stepNode m r env).nodeName = r.nodeName := by
  unfold stepNode
  split
  · rfl
  · split
    · rfl
    · split
      · rfl
      · split <;> rfl

lemma cycleNode_nodeName (adm : List String) (m : Nat)
    (envOf : String → EngineEnv) (r : NodeUpgradeRecord) :
    (cycleNode adm m envOf r).nodeName = r.nodeName := by
  unfold cycleNode
  split
  · split <;> rfl
  · exact stepNode_nodeName m r (envOf r.nodeName)

lemma stepNode_eq_of_success (m : Nat) (r : NodeUpgradeRecord)
    (env : EngineEnv) (hterm : r.state.isTerminal = false)
    (hur : r.state ≠ .upgradeRequired) (hatt : r.attemptCount < m)
    (hs : stepSucceeds r.state env = true) :
    stepNode m r env =
      { r with
          state := nextState r.state
          attemptCount := 0
          lastError := none
          trackedPodRef :=
            if nextState r.state == .upToDate then none
            else r.trackedPodRef } := by
  unfold stepNode
  rw [if_neg (by simp [hterm]), if_neg (by simp [hur]),
    if_neg (by omega), if_pos hs]

lemma stepNode_eq_of_failure (m : Nat) (r : NodeUpgradeRecord)
    (env : EngineEnv) (hterm : r.state.isTerminal = false)
    (hur : r.state ≠ .upgradeRequired) (hatt : r.attemptCount < m)
    (hs : stepSucceeds r.state env = false) :
    stepNode m r env =
      { r with
          attemptCount := r.attemptCount + 1
          lastError := some (stepErrorMsg r.state env) } := by
  unfold stepNode
  rw [if_neg (by simp [hterm]), if_neg (by simp [hur]),
    if_neg (by omega), if_neg (by simp [hs])]

lemma stepNode_allowed (m : Nat) (r : NodeUpgradeRecord) (env : EngineEnv) :
    allowedB r.state (stepNode m r env).state = true := by
  unfold stepNode
  split
  · simp [allowedB]
  · split
    · simp [allowedB]
    · split
      · rename_i h1 h2 h3
        cases hs : r.state <;>
          simp_all [allowedB, edgeB, UpgradeState.isTerminal]
      · split
        · cases hs : r.state <;>
            simp_all [allowedB, edgeB, nextState, UpgradeState.isTerminal]
        · simp [allowedB]

lemma cycleNode_allowed (adm : List String) (m : Nat)
    (envOf : String → EngineEnv) (r : NodeUpgradeRecord) :
    allowedB r.state (cycleNode adm m envOf r).state = true := by
  unfold cycleNode
  split
  · rename_i h
    split
    · simp_all [allowedB, edgeB]
    · simp [allowedB]
  · exact stepNode_allowed m r (envOf r.nodeName)

/-! ### Counting machinery for the admission budget -/

lemma countP_le_add {α : Type} (p q t : α → Bool) (l : List α)
    (h : ∀ x ∈ l, p x = true → q x = true ∨ t x = true) :
    l.countP p ≤ l.countP q + l.countP t := by
  induction l with
  | nil => simp
  | cons a l ih =>
    have ha := h a (List.mem_cons_self a l)
    have ih2 := ih fun x hx hpx => h x (List.mem_cons_of_mem a hx) hpx
    simp only [List.countP_cons]
    cases hpa : p a
    · cases hqa : q a <;> cases hta : t a <;> simp [hpa, hqa, hta] <;> omega
    · rcases ha hpa with hq | ht
      · simp [hpa, hq]
        cases hta : t a <;> simp [hta] <;> omega
      · simp [hpa, ht]
        cases hqa : q a <;> simp [hqa] <;> omega

lemma countP_contains_le_length (names : List String) (hnd : names.Nodup)
    (adm : List String) :
    names.countP (fun n => adm.contains n) ≤ adm.length := by
  rw [List.countP_eq_length_filter]
  have hsub : names.filter (fun n => adm.contains n) ⊆ adm := by
    intro x hx
    rw [List.mem_filter] at hx
    exact List.mem_of_elem_eq_true hx.2
  exact ((hnd.filter _).subperm hsub).length_le

lemma stepNode_inFlight_mono (m : Nat) (r : NodeUpgradeRecord)
    (env : EngineEnv)
    (h : (stepNode m r env).state.inFlight = true) :
    r.state.inFlight = true := by
  unfold stepNode at h
  split at h
  · exact h
  · split at h
    · exact h
    · split at h
      · simp [UpgradeState.inFlight, UpgradeState.isTerminal] at h
      · split at h
        · rename_i hterm hur hmax hsucc
          cases hs : r.state <;>
            simp_all [UpgradeState.inFlight, UpgradeState.isTerminal, nextState]
        · exact h

lemma cycleNode_inFlight (adm : List String) (m : Nat)
    (envOf : String → EngineEnv) (r : NodeUpgradeRecord)
    (h : (cycleNode adm m envOf r).state.inFlight = true) :
    r.state.inFlight = true ∨
      (decide (r.state = .upgradeRequired) && adm.contains r.nodeName) = true := by
  unfold cycleNode at h
  split at h
  · rename_i hur
    split at h
    · rename_i hcont
      right
      simp_all
    · left; exact h
  · left; exact stepNode_inFlight_mono m r (envOf r.nodeName) h

lemma admittedNames_length_le (budget : Nat) (s : List NodeUpgradeRecord) :
    (admittedNames budget s).length ≤ budget - inFlightCount s := by
  unfold admittedNames
  exact List.length_take_le _ _

lemma cycle_inFlight_le (budget m : Nat) (s : List NodeUpgradeRecord)
    (envOf : String → EngineEnv)
    (hnd : (s.map (fun r => r.nodeName)).Nodup)
    (hb : inFlightCount s ≤ budget) :
    inFlightCount (cycle budget m s envOf) ≤ budget := by
  unfold cycle inFlightCount
  rw [List.countP_map]
  have h1 : s.countP
      (fun r => (cycleNode (admittedNames budget s) m envOf r).state.inFlight) ≤
      s.countP (fun r => r.state.inFlight) +
        s.countP (fun r =>
          decide (r.state = .upgradeRequired) &&
            (admittedNames budget s).contains r.nodeName) := by
    refine countP_le_add _ _ _ s ?_
    intro r _ hp
    exact cycleNode_inFlight _ _ _ _ hp
  have h2 : s.countP (fun r =>
      decide (r.state = .upgradeRequired) &&
        (admittedNames budget s).contains r.nodeName) ≤
      s.countP (fun r => (admittedNames budget s).contains r.nodeName) := by
    refine List.countP_mono_left ?_
    intro r _ hr
    exact (Bool.and_eq_true_iff.mp hr).2
  have h3 : s.countP (fun r => (admittedNames budget s).contains r.nodeName) =
      (s.map (fun r => r.nodeName)).countP
        (fun n => (admittedNames budget s).contains n) := by
    rw [List.countP_map]
    rfl
  have h4 := countP_contains_le_length _ hnd (admittedNames budget s)
  have h5 := admittedNames_length_le budget s
  have hg : s.countP
      ((fun r => r.state.inFlight) ∘ cycleNode (admittedNames budget s) m envOf) =
      s.countP
        (fun r => (cycleNode (admittedNames budget s) m envOf r).state.inFlight) :=
    rfl
  have hb2 : s.countP (fun r => r.state.inFlight) ≤ budget := hb
  have hf : budget - inFlightCount s =
      budget - s.countP (fun r => r.state.inFlight) := rfl
  rw [hf] at h5
  rw [hg]
  omega

/-! ### The reachability invariant -/

lemma cycle_map_nodeName (budget m : Nat) (s : List NodeUpgradeRecord)
    (envOf : String → EngineEnv) :
    (cycle budget m s envOf).map (fun r => r.nodeName) =
      s.map (fun r => r.nodeName) := by
  unfold cycle
  rw [List.map_map]
  exact List.map_congr_left fun r _ => cycleNode_nodeName _ _ _ r

lemma reachable_invariant {budget m : Nat} {s : List NodeUpgradeRecord}
    (h : Reachable budget m s) :
    (s.map (fun r => r.nodeName)).Nodup ∧ inFlightCount s ≤ budget := by
  induction h with
  | init s hnd hst =>
    refine ⟨hnd, ?_⟩
    have h0 : inFlightCount s = 0 := by
      unfold inFlightCount
      rw [List.countP_eq_zero]
      intro r hr
      rcases hst r hr with h1 | h1 <;>
        simp [h1, UpgradeState.inFlight, UpgradeState.isTerminal]
    omega
  | cycleStep s envOf h ih =>
    exact ⟨by rw [cycle_map_nodeName]; exact ih.1,
      cycle_inFlight_le _ _ _ _ ih.1 ih.2⟩
  | clearStep a b r h hf ih =>
    constructor
    · have hm : (a ++ clearedRecord r.nodeName :: b).map (fun x => x.nodeName) =
          (a ++ r :: b).map (fun x => x.nodeName) := by
        simp [clearedRecord]
      rw [hm]
      exact ih.1
    · have hc : inFlightCount (a ++ clearedRecord r.nodeName :: b) =
          inFlightCount (a ++ r :: b) := by
        unfold inFlightCount
        rw [List.countP_append, List.countP_append, List.countP_cons,
          List.countP_cons]
        simp [clearedRecord, hf, UpgradeState.inFlight, UpgradeState.isTerminal]
      rw [hc]
      exact ih.2

/-! ### Properties of the drain engine -/

lemma drain_fst (w : NodeWorld) (policy : DrainPolicy)
    (evicts : String → Bool) :
    (drain w policy evicts).1 =
      { unschedulable := true
        pods := w.pods.filter (fun p => policy.skip p || !evicts p.name) } := by
  unfold drain
  dsimp only []
  split <;> rfl

/-! ### The claims -/

/-- C1: in every reconcile cycle, each tracked node's state changes only
along an edge of the spec section 4.5 table (the six forward edges, or a
non-terminal state to `failed`); no transition skips a state. -/
theorem coordinator_transitions_follow_edges (budget maxAttempts : Nat)
    (s : List NodeUpgradeRecord) (envOf : String → EngineEnv) :
    List.Forall₂ (fun pre post => allowedB pre.state post.state = true)
      s (cycle budget maxAttempts s envOf) := by
  unfold cycle
  rw [List.forall₂_map_right_iff, List.forall₂_same]
  intro r _
  exact cycleNode_allowed _ _ _ r

/-- C2: in every reachable cluster state the number of nodes in a state
other than `upToDate`, `failed` or `upgradeRequired` is at most
`maxParallelUpgrades`, and an `upgradeRequired` node is admitted into
`cordonRequired` only when that count is below the budget. -/
theorem parallel_upgrade_budget_invariant (budget maxAttempts : Nat)
    (s : List NodeUpgradeRecord)
    (h : Reachable budget maxAttempts s) :
    inFlightCount s ≤ budget ∧
    ∀ (envOf : String → EngineEnv) (i : Nat) (hi : i < s.length)
      (hi2 : i < (cycle budget maxAttempts s envOf).length),
      (s.get ⟨i, hi⟩).state = .upgradeRequired →
      ((cycle budget maxAttempts s envOf).get ⟨i, hi2⟩).state =
        .cordonRequired →
      inFlightCount s < budget := by
  refine ⟨(reachable_invariant h).2, ?_⟩
  intro envOf i hi hi2 hUR hCR
  by_cases hk : inFlightCount s < budget
  · exact hk
  · exfalso
    have hbk : budget - inFlightCount s = 0 := by omega
    have hadm : admittedNames budget s = [] := by
      unfold admittedNames
      rw [hbk]
      exact List.take_zero _
    have hget : (cycle budget maxAttempts s envOf).get ⟨i, hi2⟩ =
        cycleNode (admittedNames budget s) maxAttempts envOf
          (s.get ⟨i, hi⟩) := by
      simp [cycle, List.get_eq_getElem, List.getElem_map]
    rw [hget, hadm] at hCR
    simp only [cycleNode, List.contains_nil, Bool.false_eq_true, if_false,
      beq_iff_eq] at hCR
    rw [if_pos hUR] at hCR
    exact absurd (hUR.symm.trans hCR) (by decide)

theorem parallel_upgrade_budget_invariant_witness :
    inFlightCount [urRecord "a", urRecord "b"] ≤ 1 :=
  (parallel_upgrade_budget_invariant 1 3 [urRecord "a", urRecord "b"]
    (Reachable.init _ (by decide) (by decide))).1

/-- C3: for a tracked node in a non-terminal, non-`upgradeRequired` state
whose retry budget is not yet exhausted, the per-cycle step is atomic on
the record: on engine success the state advances exactly one table edge
and `attemptCount` resets to zero; on engine failure `attemptCount` is
incremented, the error is recorded, and the state is left unchanged. -/
theorem per_cycle_step_atomic (maxAttempts : Nat) (r : NodeUpgradeRecord)
    (env : EngineEnv) (hterm : r.state.isTerminal = false)
    (hur : r.state ≠ .upgradeRequired) (hatt : r.attemptCount < maxAttempts) :
    (stepSucceeds r.state env = true →
      stepNode maxAttempts r env =
        { r with
            state := nextState r.state
            attemptCount := 0
            lastError := none
            trackedPodRef :=
              if nextState r.state == .upToDate then none
              else r.trackedPodRef }) ∧
    (stepSucceeds r.state env = false →
      stepNode maxAttempts r env =
        { r with
            attemptCount := r.attemptCount + 1
            lastError := some (stepErrorMsg r.state env) }) ∧
    edgeB r.state (nextState r.state) = true := by
  refine ⟨fun hs => stepNode_eq_of_success _ _ _ hterm hur hatt hs,
    fun hs => stepNode_eq_of_failure _ _ _ hterm hur hatt hs, ?_⟩
  cases hs : r.state <;>
    simp_all [edgeB, nextState, UpgradeState.isTerminal]

theorem per_cycle_step_atomic_witness :
    stepNode 5 drainingRecord envDrainFails =
      { drainingRecord with
          attemptCount := 1
          lastError := some "drain failed" } :=
  (per_cycle_step_atomic 5 drainingRecord envDrainFails (by decide)
    (by decide) (by decide)).2.1 (by decide)

/-- C4: given ten nodes in `upgradeRequired` and `maxParallelUpgrades = 3`
with no other node in flight, one cycle admits exactly 3 nodes past
`upgradeRequired` (into `cordonRequired`), leaves 7 in `upgradeRequired`,
and the admitted batch is exactly the three lexicographically least node
names, so the rollout order is reproducible. -/
theorem ten_nodes_budget_three_one_cycle :
    ((cycle 3 5 tenFreshNodes (fun _ => envAllOk)).countP
        (fun r => !(r.state == .upgradeRequired))) = 3 ∧
    ((cycle 3 5 tenFreshNodes (fun _ => envAllOk)).countP
        (fun r => r.state == .upgradeRequired)) = 7 ∧
    (cycle 3 5 tenFreshNodes (fun _ => envAllOk)).map
        (fun r => (r.nodeName, r.state)) =
      [("n07", .upgradeRequired), ("n02", .cordonRequired),
       ("n10", .upgradeRequired), ("n01", .cordonRequired),
       ("n05", .upgradeRequired), ("n04", .upgradeRequired),
       ("n09", .upgradeRequired), ("n03", .cordonRequired),
       ("n08", .upgradeRequired), ("n06", .upgradeRequired)] ∧
    admittedNames 3 tenFreshNodes =
      (sortNames (tenFreshNodes.map (fun r => r.nodeName))).take 3 := by
  refine ⟨by decide, by decide, by decide, by decide⟩

/-- C5: a node whose retry budget is exhausted transitions to `failed`
regardless of which step it was on; a `failed` node is left untouched by
every cycle; and clearing a node's record re-admits it as
`upgradeRequired`. -/
theorem failed_is_terminal_until_cleared (maxAttempts : Nat) :
    (∀ (r : NodeUpgradeRecord) (env : EngineEnv),
        r.state.isTerminal = false → r.state ≠ .upgradeRequired →
        maxAttempts ≤ r.attemptCount →
        (stepNode maxAttempts r env).state = .failed) ∧
    (∀ (budget : Nat) (s : List NodeUpgradeRecord)
        (envOf : String → EngineEnv) (i : Nat) (hi : i < s.length)
        (hi2 : i < (cycle budget maxAttempts s envOf).length),
        (s.get ⟨i, hi⟩).state = .failed →
        (cycle budget maxAttempts s envOf).get ⟨i, hi2⟩ = s.get ⟨i, hi⟩) ∧
    (∀ name, (clearedRecord name).state = .upgradeRequired) := by
  refine ⟨?_, ?_, fun _ => rfl⟩
  · intro r env hterm hur hmax
    unfold stepNode
    rw [if_neg (by simp [hterm]), if_neg (by simp [hur]), if_pos hmax]
  · intro budget s envOf i hi hi2 hf
    have hget : (cycle budget maxAttempts s envOf).get ⟨i, hi2⟩ =
        cycleNode (admittedNames budget s) maxAttempts envOf
          (s.get ⟨i, hi⟩) := by
      simp [cycle, List.get_eq_getElem, List.getElem_map]
    rw [hget]
    unfold cycleNode
    rw [if_neg (by simp only [beq_iff_eq, hf]; decide)]
    unfold stepNode
    rw [if_pos (by simp only [hf]; rfl)]

theorem failed_is_terminal_until_cleared_witness :
    (stepNode 3 stuckRecord envDrainFails).state = .failed ∧
    (cycle 2 3 [failedRecord] (fun _ => envDrainFails)).get
        ⟨0, by decide⟩ = failedRecord ∧
    (clearedRecord "w2").state = .upgradeRequired :=
  ⟨(failed_is_terminal_until_cleared 3).1 stuckRecord envDrainFails
      (by decide) (by decide) (by decide),
   (failed_is_terminal_until_cleared 3).2.1 2 [failedRecord]
      (fun _ => envDrainFails) 0 (by decide) (by decide) (by decide),
   (failed_is_terminal_until_cleared 3).2.2 "w2"⟩

/-- C6: in every reconcile cycle, no tracked node transitions into
`uncordonRequired` while its tracked pod's observed readiness is false:
entering `uncordonRequired` (the only state from which the uncordon
engine is invoked) requires the readiness observation to be true. -/
theorem no_uncordon_before_pod_ready (budget maxAttempts : Nat)
    (s : List NodeUpgradeRecord) (envOf : String → EngineEnv) :
    List.Forall₂
      (fun pre post =>
        pre.state ≠ .uncordonRequired →
        post.state = .uncordonRequired →
        (envOf pre.nodeName).podReady = true)
      s (cycle budget maxAttempts s envOf) := by
  unfold cycle
  rw [List.forall₂_map_right_iff, List.forall₂_same]
  intro r _ hpre hpost
  unfold cycleNode at hpost
  split at hpost
  · split at hpost
    · simp at hpost
    · exact absurd hpost hpre
  · unfold stepNode at hpost
    split at hpost
    · exact absurd hpost hpre
    · split at hpost
      · simp at hpost
      · split at hpost
        · rename_i hterm hmax hsucc
          simp only [] at hpost
          cases hst : r.state <;> simp_all [nextState, stepSucceeds]
        · simp only [] at hpost
          exact absurd hpost hpre

/-- C7: when some non-skipped pod on the node fails to evict before the
policy timeout, `drain` returns `DrainError{Timeout, remainingPods}` with
the non-empty list of remaining pods, and the node is left cordoned —
`drain` never uncordons on partial failure. -/
theorem drain_timeout_leaves_node_cordoned (w : NodeWorld)
    (policy : DrainPolicy) (evicts : String → Bool) (p : Pod)
    (hp : p ∈ w.pods) (hskip : policy.skip p = false)
    (hev : evicts p.name = false) :
    (drain w policy evicts).2 =
      .err .timeout
        ((remainingAfterDrain { w with unschedulable := true } policy
          evicts).map (fun q => q.name)) ∧
    remainingAfterDrain { w with unschedulable := true } policy evicts ≠ [] ∧
    (drain w policy evicts).1.unschedulable = true := by
  have hmem : p ∈ remainingAfterDrain { w with unschedulable := true }
      policy evicts := by
    unfold remainingAfterDrain
    rw [List.mem_filter]
    exact ⟨hp, by simp [hskip, hev]⟩
  have hne : remainingAfterDrain { w with unschedulable := true } policy
      evicts ≠ [] := List.ne_nil_of_mem hmem
  refine ⟨?_, hne, by rw [drain_fst]⟩
  unfold drain
  dsimp only []
  rw [if_neg (by simpa [List.isEmpty_iff] using hne)]

theorem drain_timeout_leaves_node_cordoned_witness :
    (drain stuckPodWorld defaultPolicy noneEvict).2 =
      .err .timeout ["stuck-pod"] ∧
    (drain stuckPodWorld defaultPolicy noneEvict).1.unschedulable = true := by
  have h := drain_timeout_leaves_node_cordoned stuckPodWorld defaultPolicy
    noneEvict { name := "stuck-pod" } (by decide) (by decide) (by decide)
  exact ⟨h.1.trans (by decide), h.2.2⟩

/-- C8: `drain` is idempotent — on an already-cordoned node with no
evictable pods it succeeds leaving the world unchanged; repeating `drain`
with no intervening pod creation reproduces the same world and outcome;
and a successful drain leaves the node cordoned and empty of evictable
pods. -/
theorem drain_is_idempotent (w : NodeWorld) (policy : DrainPolicy)
    (evicts : String → Bool) :
    (w.unschedulable = true →
      w.pods.filter (fun p => !policy.skip p) = [] →
      drain w policy evicts = (w, .ok)) ∧
    drain (drain w policy evicts).1 policy evicts = drain w policy evicts ∧
    ((drain w policy evicts).2 = .ok →
      (drain w policy evicts).1.unschedulable = true ∧
      (drain w policy evicts).1.pods.filter (fun p => !policy.skip p) = []) := by
  have hff1 : ∀ (l : List Pod),
      (l.filter (fun p => policy.skip p || !evicts p.name)).filter
        (fun p => !policy.skip p && !evicts p.name) =
      l.filter (fun p => !policy.skip p && !evicts p.name) := by
    intro l
    rw [List.filter_filter]
    refine List.filter_congr ?_
    intro p _
    cases hsp : policy.skip p <;> cases hep : evicts p.name <;> simp [hsp, hep]
  have hff2 : ∀ (l : List Pod),
      (l.filter (fun p => policy.skip p || !evicts p.name)).filter
        (fun p => policy.skip p || !evicts p.name) =
      l.filter (fun p => policy.skip p || !evicts p.name) := by
    intro l
    rw [List.filter_filter]
    refine List.filter_congr ?_
    intro p _
    cases hsp : policy.skip p <;> cases hep : evicts p.name <;> simp [hsp, hep]
  refine ⟨?_, ?_, ?_⟩
  · intro hu hev
    obtain ⟨wu, wpods⟩ := w
    simp only at hu
    subst hu
    have hall : ∀ p ∈ wpods, policy.skip p = true := by
      intro p hp
      have h2 := List.filter_eq_nil_iff.mp hev p hp
      simpa using h2
    have hrem : remainingAfterDrain { unschedulable := true, pods := wpods }
        policy evicts = [] := by
      unfold remainingAfterDrain
      rw [List.filter_eq_nil_iff]
      intro p hp
      simp [hall p hp]
    have hpods : wpods.filter (fun p => policy.skip p || !evicts p.name) =
        wpods :=
      List.filter_eq_self.mpr (fun p hp => by simp [hall p hp])
    unfold drain
    dsimp only []
    rw [if_pos (by rw [hrem]; rfl)]
    rw [hpods]
  · conv_lhs => rw [drain_fst]
    unfold drain remainingAfterDrain
    dsimp only []
    rw [hff1, hff2]
  · intro hok
    refine ⟨by rw [drain_fst], ?_⟩
    have hremE : (remainingAfterDrain { w with unschedulable := true }
        policy evicts).isEmpty = true := by
      by_contra hne
      unfold drain at hok
      dsimp only [] at hok
      rw [if_neg hne] at hok
      exact DrainOutcome.noConfusion hok
    have hrem : remainingAfterDrain { w with unschedulable := true }
        policy evicts = [] := by
      rwa [List.isEmpty_iff] at hremE
    rw [drain_fst]
    dsimp only []
    rw [List.filter_filter]
    have hcg : ∀ p ∈ w.pods,
        ((!policy.skip p) && (policy.skip p || !evicts p.name)) =
          (!policy.skip p && !evicts p.name) := by
      intro p _
      cases hsp : policy.skip p <;> cases hep : evicts p.name <;>
        simp [hsp, hep]
    rw [List.filter_congr hcg]
    have h3 := hrem
    unfold remainingAfterDrain at h3
    exact h3

theorem drain_is_idempotent_witness :
    drain emptyCordonedWorld defaultPolicy noneEvict =
      (emptyCordonedWorld, .ok) :=
  (drain_is_idempotent emptyCordonedWorld defaultPolicy noneEvict).1
    rfl (by decide)

/-- C9: for a node in `podDeletionRequired` whose retry budget is not
exhausted, a `NotFound` delete result is treated exactly like `ok`: the
resulting record is identical to the one produced under `ok`, the node
advances to `drainRequired`, and `attemptCount` is not incremented. -/
theorem delete_notfound_is_progress (maxAttempts : Nat)
    (r : NodeUpgradeRecord) (env : EngineEnv)
    (hstate : r.state = .podDeletionRequired)
    (hatt : r.attemptCount < maxAttempts)
    (hnf : env.deleteResult = .notFound) :
    stepNode maxAttempts r env =
      stepNode maxAttempts r { env with deleteResult := .ok } ∧
    (stepNode maxAttempts r env).state = .drainRequired ∧
    (stepNode maxAttempts r env).attemptCount = 0 := by
  have hs : stepSucceeds r.state env = true := by
    rw [hstate]
    simp [stepSucceeds, hnf]
  have hs2 : stepSucceeds r.state { env with deleteResult := .ok } = true := by
    rw [hstate]
    simp [stepSucceeds]
  have hne : r.state ≠ .upgradeRequired := by rw [hstate]; decide
  have hrec := stepNode_eq_of_success maxAttempts r env
    (by rw [hstate]; rfl) hne hatt hs
  have hrec2 := stepNode_eq_of_success maxAttempts r
    { env with deleteResult := .ok } (by rw [hstate]; rfl) hne hatt hs2
  rw [hrec, hrec2]
  refine ⟨rfl, ?_, rfl⟩
  rw [hstate]
  rfl

theorem delete_notfound_is_progress_witness :
    (stepNode 5 deletingRecord envDeleteNotFound).state = .drainRequired ∧
    (stepNode 5 deletingRecord envDeleteNotFound).attemptCount = 0 :=
  ⟨(delete_notfound_is_progress 5 deletingRecord envDeleteNotFound rfl
      (by decide) rfl).2.1,
   (delete_notfound_is_progress 5 deletingRecord envDeleteNotFound rfl
      (by decide) rfl).2.2⟩

/-- C10: if any fallible setup step of `main` fails — manager creation,
any of the four CRD controller registrations, the Kubernetes interface,
the Upgrade controller registration, or either health/ready check — the
process exits with status 1 and `mgr.Start` is never called. -/
theorem main_exits_before_start_on_setup_failure (e : SetupEnv)
    (h : e.newManagerOk = false ∨ e.nicClusterPolicyOk = false ∨
      e.macvlanNetworkOk = false ∨ e.hostDeviceNetworkOk = false ∨
      e.ipoibNetworkOk = false ∨ e.k8sInterfaceOk = false ∨
      e.upgradeControllerOk = false ∨ e.healthzOk = false ∨
      e.readyzOk = false) :
    runMain e = { exitCode := 1, startCalled := false } := by
  obtain ⟨nm, nic, mac, hd, ip, k8s, up, hz, rz, st⟩ := e
  simp only at h
  unfold runMain setupCRDControllers
  simp only
  rcases h with h | h | h | h | h | h | h | h | h <;> subst h <;>
    (repeat' split) <;> simp_all

theorem main_exits_before_start_on_setup_failure_witness :
    runMain failingSetup = { exitCode := 1, startCalled := false } :=
  main_exits_before_start_on_setup_failure failingSetup (by decide)

end NetworkOperator
